import Mathlib

/-!
Verification development for the ROS-CHOMP interactive shell
(`src/chomp-shell.cpp`).

The shell drives the CHOMP trajectory optimizer for a point robot in the
plane: global state holds the start configuration `qs`, the goal
configuration `qe`, the flat waypoint vector `xi` (`nq` waypoints of
dimension `cdim` each), and an obstacle matrix `obs` whose columns are
`(x, y, R)` triples.  GUI callbacks (`cb_idle`, `cb_mouse`) mutate this
state; `chomp::run_chomp` (declared in `chomp.hpp`, whose implementation is
not part of the shell translation unit) performs one covariant
gradient-descent step.

Real numbers (`double` in the source) are embedded as `ℚ`, which keeps all
definitions executable and all equalities decidable.  Eigen vectors and
matrices become lists; the obstacle matrix becomes a list of column
records.
-/

/-- Error kinds of the optimizer core (spec §7): wrong vector length,
out-of-range index, and the degenerate `nq = 0` metric. -/
inductive ChompError where
  | DimensionError
  | IndexError
  | SingularMetricError
deriving DecidableEq, Repr

/-- One column of the obstacle matrix `obs`: center `(px, py)` and radius.
The source stores these as a 3-row Eigen matrix (`obs_dim = 3`), one
column per obstacle. -/
structure Obstacle where
  px : ℚ
  py : ℚ
  radius : ℚ
deriving DecidableEq, Repr

instance : Inhabited Obstacle := ⟨⟨0, 0, 0⟩⟩

namespace chomp

/-- Dot product of two rational vectors (shorter one padded conceptually
by truncation). -/
def dotQ : List ℚ → List ℚ → ℚ
  | [], _ => 0
  | _, [] => 0
  | a :: as, b :: bs => a * b + dotQ as bs

/-- Componentwise vector sum. -/
def vecAdd (v w : List ℚ) : List ℚ := List.zipWith (· + ·) v w

/-- Componentwise vector difference. -/
def vecSub (v w : List ℚ) : List ℚ := List.zipWith (· - ·) v w

/-- Scalar multiple of a vector. -/
def scaleQ (c : ℚ) (v : List ℚ) : List ℚ := v.map (fun x => c * x)

/-- Matrix transpose for row-list matrices. -/
def matT (m : List (List ℚ)) : List (List ℚ) :=
  (List.range (m.headD []).length).map (fun c => m.map (fun row => row.getD c 0))

/-- Matrix-vector product. -/
def matVec (m : List (List ℚ)) (v : List ℚ) : List ℚ :=
  m.map (fun row => dotQ row v)

/-- Matrix-matrix product. -/
def matMul (a b : List (List ℚ)) : List (List ℚ) :=
  let bt := matT b
  a.map (fun row => bt.map (fun col => dotQ row col))

/-- Modelled from the spec: the banded consecutive-difference operator `D`
of §4.2 (the implementation lives in `chomp.hpp`/`chomp.cpp`, which are not
part of the shell source).  Square of size `nq*cdim`, identity blocks on
the diagonal and minus-identity blocks one `cdim`-block below, so that
block row `i` of `D·ξ` is the finite-difference velocity `q_i − q_{i−1}`. -/
def Dmat (nq cdim : ℕ) : List (List ℚ) :=
  (List.range (nq * cdim)).map (fun r =>
    (List.range (nq * cdim)).map (fun c =>
      if c = r then 1 else if c + cdim = r then -1 else 0))

/-- Modelled from the spec: the boundary vector `b` of §4.2, whose first
block depends linearly on `start` and whose last block depends linearly on
`goal` (they pin both ends of the difference stencil). -/
def bvec (nq cdim : ℕ) (qs qe : List ℚ) : List ℚ :=
  (List.range (nq * cdim)).map (fun r =>
    (if r < cdim then -(qs.getD r 0) else 0) +
    (if (nq - 1) * cdim ≤ r then -(qe.getD (r - (nq - 1) * cdim) 0) else 0))

/-- Modelled from the spec: the smoothness metric `A = Dᵗ·D` of §4.2.  It
takes only `nq` and `cdim` — not the obstacle set, start, or goal. -/
def metricA (nq cdim : ℕ) : List (List ℚ) :=
  matMul (matT (Dmat nq cdim)) (Dmat nq cdim)

/-- Modelled from the spec: gradient of the smoothness cost,
`∇_smooth = A·ξ + Dᵗ·b` (§4.2). -/
def smoothGrad (nq cdim : ℕ) (qs qe xi : List ℚ) : List ℚ :=
  vecAdd (matVec (metricA nq cdim) xi) (matVec (matT (Dmat nq cdim)) (bvec nq cdim qs qe))

/-- Modelled from the spec: per-waypoint obstacle-cost gradient (§4.3),
using the quadratic falloff the spec explicitly permits (zero cost outside
the disk, increasing toward the center, gradient radial) so the model
stays exact over `ℚ`.  A waypoint strictly inside an obstacle's disk
contributes the radial gradient of `R² − ‖x − center‖²`; outside it
contributes zero. -/
def obsGradBlock (cdim : ℕ) (q : List ℚ) (obstacles : List Obstacle) : List ℚ :=
  obstacles.foldl (fun acc o =>
    let dx := q.getD 0 0 - o.px
    let dy := q.getD 1 0 - o.py
    if dx * dx + dy * dy < o.radius * o.radius then
      vecAdd acc ((List.range cdim).map (fun k =>
        if k = 0 then -2 * dx else if k = 1 then -2 * dy else 0))
    else acc) (List.replicate cdim 0)

/-- Modelled from the spec: the full obstacle-cost gradient, one
`cdim`-block per waypoint, recomputed from scratch from the current
obstacle set on every call (§4.3). -/
def obsGrad (nq cdim : ℕ) (xi : List ℚ) (obstacles : List Obstacle) : List ℚ :=
  (List.range nq).foldr
    (fun i acc => obsGradBlock cdim ((xi.drop (i * cdim)).take cdim) obstacles ++ acc) []

/-- Scale an augmented row (coefficients, right-hand side). -/
def scaleRow (c : ℚ) (r : List ℚ × ℚ) : List ℚ × ℚ := (r.1.map (fun x => c * x), c * r.2)

/-- Subtract one augmented row from another. -/
def subRow (r s : List ℚ × ℚ) : List ℚ × ℚ := (List.zipWith (· - ·) r.1 s.1, r.2 - s.2)

/-- Pick the first row whose leading coefficient is nonzero, returning it
together with the remaining rows. -/
def splitPivot : List (List ℚ × ℚ) → Option ((List ℚ × ℚ) × List (List ℚ × ℚ))
  | [] => none
  | r :: rest =>
    if r.1.headD 0 ≠ 0 then some (r, rest)
    else
      match splitPivot rest with
      | none => none
      | some (p, others) => some (p, r :: others)

/-- Gaussian elimination with back substitution on augmented rows, fueled
by the number of columns still to eliminate. -/
def gaussAux : ℕ → List (List ℚ × ℚ) → List ℚ
  | 0, _ => []
  | n + 1, rows =>
    match splitPivot rows with
    | none => 0 :: gaussAux n (rows.map (fun r => (r.1.drop 1, r.2)))
    | some (p, rest) =>
      let pv := p.1.headD 0
      let elim := rest.map (fun r => subRow r (scaleRow (r.1.headD 0 / pv) p))
      let tailSol := gaussAux n (elim.map (fun r => (r.1.drop 1, r.2)))
      ((p.2 - dotQ (p.1.drop 1) tailSol) / pv) :: tailSol

/-- Modelled from the spec: solve `A·x = g` (the spec's §4.4 step 2 says
to solve rather than invert). -/
def gaussSolve (A : List (List ℚ)) (g : List ℚ) : List ℚ :=
  gaussAux A.length (List.zip A g)

/-- Modelled from the spec: the fixed step-size parameter `η` of §4.4.
The spec fixes its existence but not its value. -/
def etaStep : ℚ := 100

/-- Modelled from the spec: the fixed obstacle weighting `λ` of §4.4.
The spec fixes its existence but not its value. -/
def lambdaWeight : ℚ := 10

/-- Modelled from the spec: one CHOMP update (§4.4), instrumented to also
return the smoothness metric the call constructed, so that theorems can
observe which metric a call used.  Steps: total gradient
`g = ∇_smooth + λ·∇_obstacle`, covariant direction `Δξ = A⁻¹·g` by solving,
update `ξ ← ξ − (1/η)·Δξ`. -/
def chompStepFull (nq cdim : ℕ) (qs qe xi : List ℚ) (obstacles : List Obstacle) :
    List (List ℚ) × List ℚ :=
  let A := metricA nq cdim
  let g := vecAdd (smoothGrad nq cdim qs qe xi)
    (scaleQ lambdaWeight (obsGrad nq cdim xi obstacles))
  let dxi := gaussSolve A g
  (A, vecSub xi (scaleQ (1 / etaStep) dxi))

/-- The new waypoint vector produced by one CHOMP update. -/
def chompStep (nq cdim : ℕ) (qs qe xi : List ℚ) (obstacles : List Obstacle) : List ℚ :=
  (chompStepFull nq cdim qs qe xi obstacles).2

/-- Modelled from the spec: `chomp::run_chomp` (§4.4, §6, §7; its C++ body
is in `chomp.cpp`, not part of the shell source).  Validates dimensions
first (`DimensionError` whenever `start`, `goal`, or `ξ` have sizes
inconsistent with `cdim`/`nq`), rejects the degenerate `nq = 0` with
`SingularMetricError` before any gradient computation, and otherwise
returns the updated waypoint vector. -/
def run_chomp (nq cdim : ℕ) (qs qe xi : List ℚ) (obstacles : List Obstacle) :
    Except ChompError (List ℚ) :=
  if qs.length = cdim ∧ qe.length = cdim ∧ xi.length = nq * cdim then
    if nq = 0 then .error .SingularMetricError
    else .ok (chompStep nq cdim qs qe xi obstacles)
  else .error .DimensionError

end chomp

/-- Dimension of config space (`static size_t const cdim (2)`). -/
def cdim : ℕ := 2

/-- Number of waypoints stacked into `xi` (`static size_t const nq (20)`). -/
def nq : ℕ := 20

/-- The run/pause/step mode enum of the shell
(`enum { PAUSE, STEP, RUN } state`). -/
inductive Mode where
  | PAUSE
  | STEP
  | RUN
deriving DecidableEq, Repr

/-- One per-waypoint robot; `Robot()` initializes `position_` to
`Vector::Zero(2)`. -/
structure Robot where
  position_ : List ℚ
deriving DecidableEq, Repr

instance : Inhabited Robot := ⟨⟨[0, 0]⟩⟩

/-- The fixed drawing radius `Robot::radius_ (0.5)`. -/
def Robot.radius_ : ℚ := 1 / 2

/-- `Robot::update`: rejects a position whose size is not exactly 2 (the
source calls `errx(EXIT_FAILURE, ...)`, fatal to the call), otherwise
stores the position. -/
def Robot.update (_r : Robot) (position : List ℚ) : Except ChompError Robot :=
  if position.length = 2 then .ok ⟨position⟩ else .error .DimensionError

/-- The state transition `Robot::update` performs: on the fatal dimension
error the stored position is left unchanged (the process dies before any
assignment), on success the argument is stored. -/
def Robot.updateOr (r : Robot) (position : List ℚ) : Robot :=
  match r.update position with
  | .ok r2 => r2
  | .error _ => r

/-- The mouse-event flag bits tested by `cb_mouse`:
`MOUSE_PRESS`, `MOUSE_DRAG`, `MOUSE_RELEASE`, and button `MOUSE_B3`. -/
structure MouseFlags where
  press : Bool
  drag : Bool
  release : Bool
  b3 : Bool
deriving DecidableEq, Repr

/-- The shell's global mutable state: trajectory endpoints and waypoints,
obstacle matrix, mode enum, grab bookkeeping, and the drawn robots.
`chompCalls` instruments how many times `chomp::run_chomp` has been
invoked. -/
structure ShellState where
  qs : List ℚ
  qe : List ℚ
  xi : List ℚ
  obs : List Obstacle
  state : Mode
  grabbed : Option ℕ
  grab_offset : ℚ × ℚ
  rstart : Robot
  rend : Robot
  robots : List Robot
  chompCalls : ℕ
deriving DecidableEq, Repr

/-- `add_obs(px, py, radius)`: `conservativeResize` grows the obstacle
matrix by one (uninitialized) column, preserving the existing columns,
then the new last column is overwritten with `(px, py, radius)`. -/
def add_obs (obstacles : List Obstacle) (px py radius : ℚ) : List Obstacle :=
  let grown := obstacles ++ [default]
  grown.set (grown.length - 1) ⟨px, py, radius⟩

/-- The grab test of `cb_mouse`'s press branch:
`offset.norm() <= obs(2,ii)` where `offset = center − pointer`.  Over `ℚ`
the square root is avoided by the equivalent condition
`0 ≤ R ∧ ‖offset‖² ≤ R²`. -/
def withinGrab (px py : ℚ) (o : Obstacle) : Bool :=
  decide (0 ≤ o.radius ∧
    (o.px - px) * (o.px - px) + (o.py - py) * (o.py - py) ≤ o.radius * o.radius)

/-- The press-branch search loop: scan columns from index `i` upward and
return the first (lowest) index whose obstacle contains the pointer. -/
def grabIndexAux (px py : ℚ) : ℕ → List Obstacle → Option ℕ
  | _, [] => none
  | i, o :: rest => if withinGrab px py o then some i else grabIndexAux px py (i + 1) rest

/-- The index grabbed by a mouse press at `(px, py)`, if any. -/
def grabIndex (px py : ℚ) (obstacles : List Obstacle) : Option ℕ :=
  grabIndexAux px py 0 obstacles

/-- The drag-branch write: `obs(0,grabbed) = x; obs(1,grabbed) = y`,
leaving row 2 (the radius) and all other columns alone. -/
def moveObs (obstacles : List Obstacle) (i : ℕ) (x y : ℚ) : List Obstacle :=
  obstacles.set i { obstacles.getD i default with px := x, py := y }

/-- `cb_mouse(px, py, flags)`: a `MOUSE_RELEASE` with button 3 appends a
radius-2 obstacle at the pointer; else a press searches for an obstacle
under the pointer and grabs it (recording the center-minus-pointer
offset and switching to RUN); else a drag moves the grabbed obstacle, if
any; else a plain release drops the grab and pauses. -/
def cb_mouse (px py : ℚ) (f : MouseFlags) (s : ShellState) : ShellState :=
  if f.release && f.b3 then
    { s with obs := add_obs s.obs px py 2 }
  else if f.press then
    match grabIndex px py s.obs with
    | some i =>
      let o := s.obs.getD i default
      { s with grab_offset := (o.px - px, o.py - py), grabbed := some i, state := Mode.RUN }
    | none => s
  else if f.drag then
    match s.grabbed with
    | some i =>
      { s with obs := moveObs s.obs i (px + s.grab_offset.1) (py + s.grab_offset.2) }
    | none => s
  else if f.release then
    { s with grabbed := none, state := Mode.PAUSE }
  else s

/-- Waypoint `ii` of the flat trajectory vector:
`xi.block(ii*cdim, 0, cdim, 1)`. -/
def xiBlock (xi : List ℚ) (ii : ℕ) : List ℚ := (xi.drop (ii * cdim)).take cdim

/-- `update_robots()`: push `qs`/`qe` into the endpoint robots, resize the
robot list to `nq`, and push each waypoint block into its robot. -/
def update_robots (s : ShellState) : ShellState :=
  { s with
    rstart := s.rstart.updateOr s.qs
    rend := s.rend.updateOr s.qe
    robots := (List.range nq).map (fun ii => (s.robots.getD ii default).updateOr (xiBlock s.xi ii)) }

/-- One invocation of the optimizer as the shell performs it: `run_chomp`
writes the new waypoint vector into `xi` (on an optimizer error, fatal to
the call, `xi` is not overwritten), and the invocation counter advances. -/
def invokeChomp (s : ShellState) : ShellState :=
  let s1 :=
    match chomp.run_chomp nq cdim s.qs s.qe s.xi s.obs with
    | .ok xi2 => { s with xi := xi2 }
    | .error _ => s
  { s1 with chompCalls := s1.chompCalls + 1 }

/-- `cb_idle()`: return immediately when paused, otherwise run one CHOMP
iteration and refresh the robots. -/
def cb_idle (s : ShellState) : ShellState :=
  if s.state = Mode.PAUSE then s
  else update_robots (invokeChomp s)

/-- `cb_step()`: switch the mode enum to STEP. -/
def cb_step (s : ShellState) : ShellState := { s with state := Mode.STEP }

/-- The zero-initialized globals before `main` runs: empty vectors, empty
obstacle matrix, mode PAUSE (first enumerator), `grabbed` at its
`(size_t)(-1)` sentinel (modelled as `none`). -/
def initGlobals : ShellState where
  qs := []
  qe := []
  xi := []
  obs := []
  state := Mode.PAUSE
  grabbed := none
  grab_offset := (0, 0)
  rstart := ⟨[0, 0]⟩
  rend := ⟨[0, 0]⟩
  robots := []
  chompCalls := 0

/-- The state `main` builds before entering the GUI loop: endpoints
`(-5,-5)` and `(7,7)`, the two pre-seeded radius-2 obstacles at `(3,0)`
and `(0,3)`, one `run_chomp` invocation, a robot refresh, and mode
PAUSE. -/
def mainState : ShellState :=
  let s0 := { initGlobals with qs := [-5, -5], qe := [7, 7] }
  let s1 := { s0 with obs := add_obs (add_obs s0.obs 3 0 2) 0 3 2 }
  let s2 := update_robots (invokeChomp s1)
  { s2 with state := Mode.PAUSE }

/-- The events the GUI loop can deliver to the shell (`gfx::main` is
registered with `cb_idle`, `cb_draw`, `cb_mouse`; `cb_draw` reads but
never writes the state). -/
inductive Event where
  | mouse (px py : ℚ) (f : MouseFlags)
  | idle

/-- Dispatch one GUI event to its callback. -/
def applyEvent (e : Event) (s : ShellState) : ShellState :=
  match e with
  | .mouse px py f => cb_mouse px py f s
  | .idle => cb_idle s

/-- Run a sequence of GUI events from a starting state. -/
def runEvents (es : List Event) (s : ShellState) : ShellState :=
  es.foldl (fun acc e => applyEvent e acc) s

/-- The grab invariant: whenever an obstacle index is grabbed, it is in
range of the obstacle matrix (so the drag write never touches an
out-of-range column). -/
def GrabInv (s : ShellState) : Prop :=
  ∀ i, s.grabbed = some i → i < s.obs.length

lemma set_snoc {α : Type} (l : List α) (d v : α) : (l ++ [d]).set l.length v = l ++ [v] := by
  induction l with
  | nil => rfl
  | cons a t ih => simp [ih]

lemma add_obs_append (l : List Obstacle) (px py r : ℚ) :
    add_obs l px py r = l ++ [⟨px, py, r⟩] := by
  unfold add_obs
  simp only [List.length_append, List.length_cons, List.length_nil, Nat.zero_add,
    Nat.add_sub_cancel]
  exact set_snoc l default ⟨px, py, r⟩

lemma getD_set_self {α : Type} (l : List α) (i : ℕ) (a d : α) (h : i < l.length) :
    (l.set i a).getD i d = a := by
  rw [List.getD_eq_getD_get?, List.get?_eq_getElem?, List.getElem?_set_eq_of_lt _ h]
  rfl

lemma cb_idle_frame (s : ShellState) :
    (cb_idle s).qs = s.qs ∧ (cb_idle s).qe = s.qe ∧ (cb_idle s).obs = s.obs ∧
    (cb_idle s).grabbed = s.grabbed ∧ (cb_idle s).state = s.state := by
  unfold cb_idle update_robots invokeChomp
  split
  · exact ⟨rfl, rfl, rfl, rfl, rfl⟩
  · rcases hr : chomp.run_chomp nq cdim s.qs s.qe s.xi s.obs with e | xi2 <;>
      simp [hr]

lemma grabIndexAux_spec (px py : ℚ) :
    ∀ (l : List Obstacle) (i j : ℕ), grabIndexAux px py i l = some j →
      i ≤ j ∧ j - i < l.length ∧ withinGrab px py (l.getD (j - i) default) = true ∧
      ∀ m, m < j - i → withinGrab px py (l.getD m default) = false := by
  intro l
  induction l with
  | nil => intro i j h; simp [grabIndexAux] at h
  | cons o t ih =>
    intro i j h
    by_cases hw : withinGrab px py o = true
    · simp only [grabIndexAux, hw, if_true, Option.some.injEq] at h
      subst h
      refine ⟨le_refl i, by simp, by simpa using hw, ?_⟩
      intro m hm
      omega
    · simp only [grabIndexAux, hw, if_false] at h
      obtain ⟨h1, h2, h3, h4⟩ := ih (i + 1) j h
      have hk : j - i = (j - (i + 1)) + 1 := by omega
      refine ⟨by omega, ?_, ?_, ?_⟩
      · rw [hk]; simpa using h2
      · rw [hk]; simpa using h3
      · intro m hm
        rw [hk] at hm
        cases m with
        | zero => simpa using Bool.not_eq_true _ |>.mp hw
        | succ m2 => simpa using h4 m2 (by omega)

lemma grabIndex_spec (px py : ℚ) (l : List Obstacle) (j : ℕ)
    (h : grabIndex px py l = some j) :
    j < l.length ∧ withinGrab px py (l.getD j default) = true ∧
    ∀ m, m < j → withinGrab px py (l.getD m default) = false := by
  have := grabIndexAux_spec px py l 0 j h
  simpa using this

lemma cb_mouse_grabInv (px py : ℚ) (f : MouseFlags) (s : ShellState) (h : GrabInv s) :
    GrabInv (cb_mouse px py f s) := by
  unfold cb_mouse
  split_ifs with h1 h2 h3 h4
  · intro i hi
    simp only at hi
    have := h i hi
    simp only [add_obs_append, List.length_append, List.length_cons, List.length_nil]
    omega
  · rcases hg : grabIndex px py s.obs with _ | k
    · simpa [hg] using h
    · intro i hi
      simp only [hg, Option.some.injEq] at hi
      subst hi
      exact (grabIndex_spec px py s.obs k hg).1
  · rcases hgb : s.grabbed with _ | k
    · simpa [hgb] using h
    · intro i hi
      simp only [hgb, Option.some.injEq] at hi
      subst hi
      simp only [hgb, moveObs, List.length_set]
      exact h k hgb
  · intro i hi
    simp at hi
  · exact h

lemma applyEvent_grabInv (e : Event) (s : ShellState) (h : GrabInv s) :
    GrabInv (applyEvent e s) := by
  cases e with
  | mouse px py f => exact cb_mouse_grabInv px py f s h
  | idle =>
    intro i hi
    obtain ⟨-, -, hobs, hgr, -⟩ := cb_idle_frame s
    simp only [applyEvent] at hi ⊢
    rw [hgr] at hi
    rw [hobs]
    exact h i hi

lemma runEvents_grabInv (es : List Event) : ∀ s, GrabInv s → GrabInv (runEvents es s) := by
  induction es with
  | nil => intro s h; exact h
  | cons e t ih =>
    intro s h
    exact ih (applyEvent e s) (applyEvent_grabInv e s h)

lemma mainState_grabbed : mainState.grabbed = none := by decide

lemma mainState_grabInv : GrabInv mainState := by
  intro i hi
  rw [mainState_grabbed] at hi
  simp at hi

/-- C1: `run_chomp` never mutates the start or goal configurations: after
any number of idle-tick `run_chomp` invocations, the start vector `qs` and
the goal vector `qe` (and the obstacle set) are identical to the values
they held before the first invocation; only the waypoint vector `xi` is
written. -/
theorem endpoints_never_mutated (s : ShellState) (n : ℕ) :
    (cb_idle^[n] s).qs = s.qs ∧ (cb_idle^[n] s).qe = s.qe ∧
    (cb_idle^[n] s).obs = s.obs := by
  induction n with
  | zero => simp
  | succ m ih =>
    rw [Function.iterate_succ_apply']
    obtain ⟨h1, h2, h3, -, -⟩ := cb_idle_frame (cb_idle^[m] s)
    exact ⟨h1.trans ih.1, h2.trans ih.2.1, h3.trans ih.2.2⟩

/-- C2: `run_chomp` fails with `DimensionError` exactly when `start`,
`goal`, or `ξ` have sizes inconsistent with `cdim` and `nq` (in
particular a size-0 `ξ` with `nq > 0` and `cdim > 0` is rejected), and
fails with `SingularMetricError` exactly in the degenerate case
`nq = 0` (with consistent sizes), before any gradient computation. -/
theorem run_chomp_error_conditions (nq2 cdim2 : ℕ) (qs qe xi : List ℚ)
    (obstacles : List Obstacle) :
    (chomp.run_chomp nq2 cdim2 qs qe xi obstacles = .error ChompError.DimensionError ↔
      ¬(qs.length = cdim2 ∧ qe.length = cdim2 ∧ xi.length = nq2 * cdim2)) ∧
    (chomp.run_chomp nq2 cdim2 qs qe xi obstacles = .error ChompError.SingularMetricError ↔
      (nq2 = 0 ∧ qs.length = cdim2 ∧ qe.length = cdim2 ∧ xi.length = nq2 * cdim2)) ∧
    ((xi = [] ∧ 0 < nq2 ∧ 0 < cdim2 ∧ qs.length = cdim2 ∧ qe.length = cdim2) →
      chomp.run_chomp nq2 cdim2 qs qe xi obstacles = .error ChompError.DimensionError) := by
  refine ⟨?_, ?_, ?_⟩
  · unfold chomp.run_chomp
    split_ifs with h1 h2 <;> simp_all
  · unfold chomp.run_chomp
    split_ifs with h1 h2 <;> simp_all
    intro hn hq1 hq2 hxi
    exact h1 hq1 hq2 (by simp [hn, hxi])
  · rintro ⟨hxi, hnq, hcd, hqs, hqe⟩
    have hpos : 0 < nq2 * cdim2 := Nat.mul_pos hnq hcd
    have hne : xi.length ≠ nq2 * cdim2 := by
      subst hxi
      simpa using by omega
    unfold chomp.run_chomp
    rw [if_neg]
    rintro ⟨-, -, h3⟩
    exact hne h3

/-- Witness for C2: the exact call `main` makes first — `nq = 20`,
`cdim = 2`, endpoints of length 2 and the never-resized empty `xi` — is a
`DimensionError`. -/
theorem run_chomp_error_conditions_witness :
    chomp.run_chomp 20 2 [-5, -5] [7, 7] [] [] = .error ChompError.DimensionError :=
  (run_chomp_error_conditions 20 2 [-5, -5] [7, 7] [] []).2.2
    ⟨rfl, by decide, by decide, by decide, by decide⟩

/-- C4: for every obstacle matrix, `add_obs(px, py, radius)` increases
the number of obstacle columns by exactly one, sets the new last column
to `(px, py, radius)`, and leaves every pre-existing column unchanged;
the obstacle set may start empty and grows only by appending. -/
theorem add_obs_appends_one_column (l : List Obstacle) (px py r : ℚ) :
    (add_obs l px py r).length = l.length + 1 ∧
    (add_obs l px py r).getLast? = some ⟨px, py, r⟩ ∧
    (add_obs l px py r).take l.length = l ∧
    add_obs l px py r = l ++ [⟨px, py, r⟩] := by
  rw [add_obs_append]
  refine ⟨by simp, ?_, ?_, rfl⟩
  · exact List.getLast?_concat l
  · exact List.take_left l _

/-- C5: a drag event acting on a grabbed in-range obstacle index updates
only the two center coordinates of that obstacle's column (to pointer
plus the recorded grab offset); its radius component and all columns of
every other obstacle are unchanged. -/
theorem drag_moves_center_only (px py : ℚ) (f : MouseFlags) (s : ShellState) (i : ℕ)
    (hrb : (f.release && f.b3) = false) (hp : f.press = false) (hd : f.drag = true)
    (hg : s.grabbed = some i) (hi : i < s.obs.length) :
    (cb_mouse px py f s).obs.length = s.obs.length ∧
    ((cb_mouse px py f s).obs.getD i default).radius = (s.obs.getD i default).radius ∧
    ((cb_mouse px py f s).obs.getD i default).px = px + s.grab_offset.1 ∧
    ((cb_mouse px py f s).obs.getD i default).py = py + s.grab_offset.2 ∧
    ∀ j, j ≠ i → (cb_mouse px py f s).obs[j]? = s.obs[j]? := by
  have hcb : (cb_mouse px py f s).obs =
      s.obs.set i { s.obs.getD i default with
        px := px + s.grab_offset.1, py := py + s.grab_offset.2 } := by
    simp [cb_mouse, hrb, hp, hd, hg, moveObs]
  rw [hcb]
  refine ⟨List.length_set _ _ _, ?_, ?_, ?_, ?_⟩
  · rw [getD_set_self _ _ _ _ hi]
  · rw [getD_set_self _ _ _ _ hi]
  · rw [getD_set_self _ _ _ _ hi]
  · intro j hj
    exact List.getElem?_set_ne (Ne.symm hj)

/-- Witness for C5: dragging the first pre-seeded obstacle of `main`'s
state keeps the obstacle count and the grabbed column's radius. -/
theorem drag_moves_center_only_witness :
    (cb_mouse 1 1 ⟨false, true, false, false⟩
        { mainState with grabbed := some 0 }).obs.length
      = ({ mainState with grabbed := some 0 } : ShellState).obs.length ∧
    ((cb_mouse 1 1 ⟨false, true, false, false⟩
        { mainState with grabbed := some 0 }).obs.getD 0 default).radius
      = (({ mainState with grabbed := some 0 } : ShellState).obs.getD 0 default).radius := by
  have h := drag_moves_center_only 1 1 ⟨false, true, false, false⟩
    { mainState with grabbed := some 0 } 0 (by decide) (by decide) (by decide)
    (by decide) (by decide)
  exact ⟨h.1, h.2.1⟩

/-- C6: appending an obstacle between two `run_chomp` calls changes only
the obstacle-gradient term of the next call's update: the smoothness
metric the call constructs is identical across the append (it is a
function of `nq` and `cdim` alone, never of obstacle data), and whenever
the obstacle-gradient term is unchanged the whole update is unchanged. -/
theorem append_changes_only_obstacle_gradient (nq2 cdim2 : ℕ) (qs qe xi : List ℚ)
    (obstacles : List Obstacle) (px py r : ℚ) :
    (chomp.chompStepFull nq2 cdim2 qs qe xi (add_obs obstacles px py r)).1
      = (chomp.chompStepFull nq2 cdim2 qs qe xi obstacles).1 ∧
    (chomp.obsGrad nq2 cdim2 xi (add_obs obstacles px py r)
        = chomp.obsGrad nq2 cdim2 xi obstacles →
      chomp.run_chomp nq2 cdim2 qs qe xi (add_obs obstacles px py r)
        = chomp.run_chomp nq2 cdim2 qs qe xi obstacles) := by
  constructor
  · rfl
  · intro h
    unfold chomp.run_chomp chomp.chompStep chomp.chompStepFull
    rw [h]

/-- Witness for C6: appending a far-away obstacle that no waypoint
touches leaves the obstacle gradient, and hence the whole update,
unchanged. -/
theorem append_changes_only_obstacle_gradient_witness :
    chomp.obsGrad 1 2 [0, 0] (add_obs [] 10 10 1) = chomp.obsGrad 1 2 [0, 0] [] ∧
    chomp.run_chomp 1 2 [0, 0] [0, 0] [0, 0] (add_obs [] 10 10 1)
      = chomp.run_chomp 1 2 [0, 0] [0, 0] [0, 0] [] := by
  have h : chomp.obsGrad 1 2 [0, 0] (add_obs [] 10 10 1) = chomp.obsGrad 1 2 [0, 0] [] := by
    rw [add_obs_append]
    norm_num [chomp.obsGrad, chomp.obsGradBlock, List.range_succ, List.range_zero]
  exact ⟨h, (append_changes_only_obstacle_gradient 1 2 [0, 0] [0, 0] [0, 0] [] 10 10 1).2 h⟩

/-- C7: on an idle tick the optimizer is invoked exactly once if and only
if the mode is not PAUSE; when the mode is PAUSE the tick returns
immediately and the whole state (trajectory, robots, obstacle set) is
unchanged. -/
theorem cb_idle_pause_gating (s : ShellState) :
    (s.state = Mode.PAUSE → cb_idle s = s) ∧
    (cb_idle s).chompCalls = s.chompCalls + (if s.state = Mode.PAUSE then 0 else 1) := by
  constructor
  · intro h
    simp [cb_idle, h]
  · by_cases h : s.state = Mode.PAUSE
    · simp [cb_idle, h]
    · simp only [cb_idle, h, if_neg h, if_false]
      unfold update_robots invokeChomp
      rcases hr : chomp.run_chomp nq cdim s.qs s.qe s.xi s.obs with e | xi2 <;> simp [hr]

/-- Witness for C7: `main` leaves the shell paused, and an idle tick on
that state is a no-op. -/
theorem cb_idle_pause_gating_witness : cb_idle mainState = mainState :=
  (cb_idle_pause_gating mainState).1 (by decide)

/-- C8: updating a per-waypoint robot with a position vector whose length
is not exactly 2 fails with a dimension error and leaves the stored
position unchanged; with a length-2 vector it succeeds and the stored
position equals the argument. -/
theorem Robot_update_dimension_check (r : Robot) (p : List ℚ) :
    (p.length ≠ 2 → r.update p = .error ChompError.DimensionError ∧ r.updateOr p = r) ∧
    (p.length = 2 → r.update p = .ok ⟨p⟩ ∧ (r.updateOr p).position_ = p) := by
  constructor
  · intro h
    exact ⟨by simp [Robot.update, h], by simp [Robot.updateOr, Robot.update, h]⟩
  · intro h
    exact ⟨by simp [Robot.update, h], by simp [Robot.updateOr, Robot.update, h]⟩

/-- Witness for C8: a 3-component update is rejected and leaves the robot
where it was; a 2-component update is stored verbatim. -/
theorem Robot_update_dimension_check_witness :
    Robot.update ⟨[0, 0]⟩ [1, 2, 3] = .error ChompError.DimensionError ∧
    Robot.updateOr ⟨[0, 0]⟩ [1, 2, 3] = ⟨[0, 0]⟩ ∧
    (Robot.updateOr ⟨[0, 0]⟩ [4, 5]).position_ = [4, 5] := by
  refine ⟨?_, ?_, ?_⟩
  · exact ((Robot_update_dimension_check ⟨[0, 0]⟩ [1, 2, 3]).1 (by decide)).1
  · exact ((Robot_update_dimension_check ⟨[0, 0]⟩ [1, 2, 3]).1 (by decide)).2
  · exact ((Robot_update_dimension_check ⟨[0, 0]⟩ [4, 5]).2 (by decide)).2

/-- C9: every obstacle created interactively comes from a button-3 mouse
release: such an event appends exactly the radius-2 obstacle centered at
the pointer, any other mouse event leaves the obstacle count unchanged,
and `main` pre-seeds exactly the two obstacles `(3,0,2)` and `(0,3,2)`. -/
theorem obstacle_creation_only_b3_release (px py : ℚ) (f : MouseFlags) (s : ShellState) :
    ((f.release && f.b3) = true → (cb_mouse px py f s).obs = s.obs ++ [⟨px, py, 2⟩]) ∧
    ((f.release && f.b3) = false → (cb_mouse px py f s).obs.length = s.obs.length) ∧
    mainState.obs = [⟨3, 0, 2⟩, ⟨0, 3, 2⟩] := by
  refine ⟨?_, ?_, by decide⟩
  · intro h
    simp [cb_mouse, h, add_obs_append]
  · intro h
    unfold cb_mouse
    simp only [h, Bool.false_eq_true, if_false]
    split_ifs with h1 h2 h3
    · rcases hg : grabIndex px py s.obs with _ | k <;> simp [hg]
    · rcases hgb : s.grabbed with _ | k <;> simp [hgb, moveObs, List.length_set]
    · rfl
    · rfl

/-- Witness for C9: a button-3 release at `(1,2)` on `main`'s state
appends the obstacle `(1,2,2)`, while a plain drag leaves the count at
two. -/
theorem obstacle_creation_only_b3_release_witness :
    (cb_mouse 1 2 ⟨false, false, true, true⟩ mainState).obs
      = mainState.obs ++ [⟨1, 2, 2⟩] ∧
    (cb_mouse 1 2 ⟨false, true, false, false⟩ mainState).obs.length
      = mainState.obs.length := by
  constructor
  · exact (obstacle_creation_only_b3_release 1 2 ⟨false, false, true, true⟩ mainState).1
      (by decide)
  · exact (obstacle_creation_only_b3_release 1 2 ⟨false, true, false, false⟩ mainState).2.1
      (by decide)

/-- C10: a drag event mutates the obstacle matrix only if a preceding
press grabbed an obstacle: while `grabbed` holds its sentinel (modelled
`none`), drag events leave the whole state unchanged; a press grabs the
lowest index whose disk contains the pointer, and in every state the GUI
loop can reach from `main`'s state the grabbed index is within the
obstacle matrix, so no out-of-range column is ever written. -/
theorem drag_grab_safety (px py : ℚ) (f : MouseFlags) (es : List Event) :
    (∀ s : ShellState, s.grabbed = none → (f.release && f.b3) = false →
      f.press = false → f.drag = true → cb_mouse px py f s = s) ∧
    (∀ (l : List Obstacle) (j : ℕ), grabIndex px py l = some j →
      j < l.length ∧ withinGrab px py (l.getD j default) = true ∧
      ∀ m, m < j → withinGrab px py (l.getD m default) = false) ∧
    (∀ i : ℕ, (runEvents es mainState).grabbed = some i →
      i < (runEvents es mainState).obs.length) := by
  refine ⟨?_, ?_, ?_⟩
  · intro s hg hrb hp hd
    simp [cb_mouse, hrb, hp, hd, hg]
  · intro l j h
    exact grabIndex_spec px py l j h
  · exact runEvents_grabInv es mainState mainState_grabInv

/-- Witness for C10: an ungrabbed drag on `main`'s state is a no-op, a
press at `(3,0)` finds obstacle index 0, and after that press the
grabbed index is in range of the obstacle matrix. -/
theorem drag_grab_safety_witness :
    cb_mouse 0 0 ⟨false, true, false, false⟩ mainState = mainState ∧
    0 < [Obstacle.mk 3 0 2].length ∧
    0 < (runEvents [Event.mouse 3 0 ⟨true, false, false, false⟩] mainState).obs.length := by
  have hw : withinGrab 3 0 ⟨3, 0, 2⟩ = true := by norm_num [withinGrab]
  have hgi : grabIndex 3 0 [⟨3, 0, 2⟩] = some 0 := by
    simp [grabIndex, grabIndexAux, hw]
  have hobs : mainState.obs = [⟨3, 0, 2⟩, ⟨0, 3, 2⟩] := by decide
  have hgi2 : grabIndex 3 0 mainState.obs = some 0 := by
    rw [hobs]
    simp [grabIndex, grabIndexAux, hw]
  have hrun : (runEvents [Event.mouse 3 0 ⟨true, false, false, false⟩] mainState).grabbed
      = some 0 := by
    simp [runEvents, applyEvent, cb_mouse, hgi2]
  refine ⟨?_, ?_, ?_⟩
  · exact (drag_grab_safety 0 0 ⟨false, true, false, false⟩ []).1 mainState
      (by decide) (by decide) (by decide) (by decide)
  · exact ((drag_grab_safety 3 0 ⟨true, false, false, false⟩ []).2.1
      [⟨3, 0, 2⟩] 0 hgi).1
  · exact (drag_grab_safety 3 0 ⟨true, false, false, false⟩
      [Event.mouse 3 0 ⟨true, false, false, false⟩]).2.2 0 hrun
